import Mathlib

/-!
A verification development for the SecureAppMax (GhostGallery) repository.

Part 1 models the on-chain aggregator `contracts/GhostGallery.sol`:
encrypted counters are represented by their ciphertext handles, with an
explicit FHE side table mapping each allocated handle to the plaintext it
encrypts.  `euint32` arithmetic wraps modulo 2^32, as the underlying
32-bit homomorphic addition does.  The keccak256 hash used to key the
per-category vote map is injective on the category strings that occur, so
the map is keyed directly by the category string.  Solidity `require`
failures revert the whole transaction; calls are therefore modelled as
`Except String` values carrying the revert message, and `applyCall`
realises the revert semantics (an erroring call leaves the state as it
was).

Part 2 models the frontend FHEVM lifecycle helpers
(`fhevm/internal/fhevm.ts` and `fhevm/internal/RelayerSDKLoader.ts`):
the network resolver, the SDK loader, the instance factory with its mock
probe, the `useFhevm` hook state machine, and the decryption signature.
-/

namespace GhostGallery

/-- 2^32, the modulus of `euint32` arithmetic. -/
def U32 : Nat := 4294967296

/-- The FHE co-processor side table: `nextHandle` is the next fresh
ciphertext handle (handle 0 is reserved as the uninitialized default of a
Solidity mapping slot), `plain` gives the plaintext behind each allocated
handle. -/
structure FheState where
  nextHandle : Nat
  plain : Nat → Nat

/-- `FHE.asEuint32(v)`: allocate a fresh handle encrypting `v` (mod 2^32). -/
def FheState.asEuint32 (f : FheState) (v : Nat) : Nat × FheState :=
  (f.nextHandle,
   { nextHandle := f.nextHandle + 1,
     plain := fun h => if h = f.nextHandle then v % U32 else f.plain h })

/-- `FHE.add(h, k)` with a plaintext scalar `k`: allocate a fresh handle
encrypting the 32-bit wrapping sum of `h`'s plaintext and `k`. -/
def FheState.addScalar (f : FheState) (h : Nat) (k : Nat) : Nat × FheState :=
  (f.nextHandle,
   { nextHandle := f.nextHandle + 1,
     plain := fun h2 => if h2 = f.nextHandle then (f.plain h + k) % U32 else f.plain h2 })

/-- The `Artwork` struct.  Addresses are modelled as naturals with 0 for
`address(0)`; `likesEnc` holds the ciphertext handle of the like counter. -/
structure Artwork where
  id : Nat
  artist : Nat
  title : String
  descriptionHash : String
  fileHash : String
  tags : List String
  categories : List String
  likesEnc : Nat
  timestamp : Nat

/-- The zero value of the `Artwork` struct, returned by a Solidity mapping
for a key that was never written. -/
def emptyArtwork : Artwork :=
  { id := 0, artist := 0, title := "", descriptionHash := "", fileHash := "",
    tags := [], categories := [], likesEnc := 0, timestamp := 0 }

/-- Contract storage.  `aclPersistent` records `FHE.allowThis` (grantee
`none`) and `FHE.allow` (grantee `some addr`) calls; `aclTransient`
records `FHE.allowTransient` grants, valid only for the current
transaction.  `votesInit` models `_votesInitialized`. -/
structure GalleryState where
  nextArtworkId : Nat
  artworks : Nat → Artwork
  artworkIds : List Nat
  votes : Nat → String → Nat
  votesInit : Nat → String → Bool
  fhe : FheState
  aclPersistent : List (Nat × Option Nat)
  aclTransient : List (Nat × Nat)

/-- Freshly deployed contract: `nextArtworkId = 1`, all mappings empty
(mapping slots read as their zero values), no ciphertext allocated yet. -/
def initialState : GalleryState :=
  { nextArtworkId := 1,
    artworks := fun _ => emptyArtwork,
    artworkIds := [],
    votes := fun _ _ => 0,
    votesInit := fun _ _ => false,
    fhe := { nextHandle := 1, plain := fun _ => 0 },
    aclPersistent := [],
    aclTransient := [] }

/-- `uploadArtwork`: allocates the next id, stores the artwork with a
fresh encrypted-zero like counter, grants persistent decryption access to
the contract and the artist, and appends the id to `_artworkIds`.
Returns the allocated id together with the new state. -/
def uploadArtwork (st : GalleryState) (sender blockTs : Nat)
    (title descriptionHash fileHash : String) (tags categories : List String) :
    Nat × GalleryState :=
  let artworkId := st.nextArtworkId
  let likes := (st.fhe.asEuint32 0).1
  let fhe1 := (st.fhe.asEuint32 0).2
  let a : Artwork :=
    { id := artworkId, artist := sender, title := title,
      descriptionHash := descriptionHash, fileHash := fileHash,
      tags := tags, categories := categories, likesEnc := likes, timestamp := blockTs }
  (artworkId,
   { st with
     nextArtworkId := artworkId + 1,
     artworks := fun i => if i = artworkId then a else st.artworks i,
     artworkIds := st.artworkIds ++ [artworkId],
     fhe := fhe1,
     aclPersistent := st.aclPersistent ++ [(likes, none), (likes, some sender)] })

/-- `likeArtwork`: requires the artwork to exist (`artist != address(0)`),
homomorphically adds the plaintext scalar 1 to the like counter, refreshes
the persistent grants for the contract and the artist and adds a transient
grant for the caller. -/
def likeArtwork (st : GalleryState) (sender artworkId : Nat) :
    Except String GalleryState :=
  let a := st.artworks artworkId
  if a.artist = 0 then .error "Artwork not found"
  else
    let h := (st.fhe.addScalar a.likesEnc 1).1
    let fhe1 := (st.fhe.addScalar a.likesEnc 1).2
    .ok { st with
      artworks := fun i => if i = artworkId then { a with likesEnc := h } else st.artworks i,
      fhe := fhe1,
      aclPersistent := st.aclPersistent ++ [(h, none), (h, some a.artist)],
      aclTransient := st.aclTransient ++ [(h, sender)] }

/-- `voteArtwork`: requires the artwork to exist, requires `category` to
be one of the artwork's declared categories (the source compares
keccak256 hashes of the strings; keccak is injective here, so this is
string equality), lazily initializes the per-category counter to
encrypted zero on first touch, homomorphically adds 1, and refreshes the
grants. -/
def voteArtwork (st : GalleryState) (sender artworkId : Nat) (category : String) :
    Except String GalleryState :=
  let a := st.artworks artworkId
  if a.artist = 0 then .error "Artwork not found"
  else if category ∈ a.categories then
    let inited := st.votesInit artworkId category
    let current1 := if inited then st.votes artworkId category else (st.fhe.asEuint32 0).1
    let fhe1 := if inited then st.fhe else (st.fhe.asEuint32 0).2
    let vi1 : Nat → String → Bool :=
      if inited then st.votesInit
      else fun i c => if i = artworkId then (if c = category then true else st.votesInit i c)
                      else st.votesInit i c
    let current2 := (fhe1.addScalar current1 1).1
    let fhe2 := (fhe1.addScalar current1 1).2
    .ok { st with
      votes := fun i c => if i = artworkId then (if c = category then current2 else st.votes i c)
                          else st.votes i c,
      votesInit := vi1,
      fhe := fhe2,
      aclPersistent := st.aclPersistent ++ [(current2, none), (current2, some a.artist)],
      aclTransient := st.aclTransient ++ [(current2, sender)] }
  else .error "Artwork does not belong to this category"

/-- `getArtwork`: requires the artwork to exist, returns the stored
struct (the source returns its fields one by one). -/
def getArtwork (st : GalleryState) (artworkId : Nat) : Except String Artwork :=
  let a := st.artworks artworkId
  if a.artist = 0 then .error "Artwork not found" else .ok a

/-- `getAllArtworks`: returns `_artworkIds`. -/
def getAllArtworks (st : GalleryState) : List Nat :=
  st.artworkIds

/-- `getVotes`: returns the stored handle for `(artworkId, category)`; no
`require`, so it succeeds for every input, returning the mapping's zero
default when the slot was never written. -/
def getVotes (st : GalleryState) (artworkId : Nat) (category : String) : Nat :=
  st.votes artworkId category

/-- EVM transaction semantics: a reverting call leaves the state as it
was before the call. -/
def applyCall (st : GalleryState) (r : Except String GalleryState) : GalleryState :=
  match r with
  | .ok st2 => st2
  | .error _ => st

/-- States reachable from a fresh deployment by any sequence of
successful transactions.  `msg.sender` is never `address(0)` on any EVM
(there is no key for it), hence the `sender ≠ 0` side condition on the
state-creating call. -/
inductive Reachable : GalleryState → Prop
  | init : Reachable initialState
  | upload (st : GalleryState) (sender blockTs : Nat)
      (title descriptionHash fileHash : String) (tags categories : List String) :
      Reachable st → sender ≠ 0 →
      Reachable (uploadArtwork st sender blockTs title descriptionHash fileHash tags categories).2
  | like (st st2 : GalleryState) (sender artworkId : Nat) :
      Reachable st → likeArtwork st sender artworkId = .ok st2 → Reachable st2
  | vote (st st2 : GalleryState) (sender artworkId : Nat) (category : String) :
      Reachable st → voteArtwork st sender artworkId category = .ok st2 → Reachable st2

/-- The storage invariant maintained by every transaction: ids were
allocated sequentially from 1 and listed in order; an artwork slot is
populated (nonzero artist) exactly for the allocated ids; a per-category
counter slot that was never initialized still holds the zero default
handle. -/
structure Inv (st : GalleryState) : Prop where
  nextPos : 1 ≤ st.nextArtworkId
  ids : st.artworkIds = List.range' 1 (st.nextArtworkId - 1)
  artist_iff : ∀ i, (st.artworks i).artist ≠ 0 ↔ (1 ≤ i ∧ i < st.nextArtworkId)
  votes_default : ∀ i c, st.votesInit i c = false → st.votes i c = 0

theorem inv_initial : Inv initialState := by
  constructor
  · exact Nat.le_refl 1
  · simp [initialState]
  · intro i
    simp [initialState, emptyArtwork]
    omega
  · intro i c _
    simp [initialState]

theorem inv_upload (st : GalleryState) (sender blockTs : Nat)
    (title descriptionHash fileHash : String) (tags categories : List String)
    (hinv : Inv st) (hs : sender ≠ 0) :
    Inv (uploadArtwork st sender blockTs title descriptionHash fileHash tags categories).2 := by
  obtain ⟨hpos, hids, hart, hvd⟩ := hinv
  constructor
  · exact Nat.le_succ_of_le hpos
  · simp only [uploadArtwork, hids]
    have h1 : 1 + (st.nextArtworkId - 1) = st.nextArtworkId := by omega
    have h2 : st.nextArtworkId + 1 - 1 = (st.nextArtworkId - 1) + 1 := by omega
    rw [h2, List.range'_1_concat, h1]
  · intro i
    simp only [uploadArtwork]
    by_cases hi : i = st.nextArtworkId
    · subst hi
      simp only [if_pos rfl]
      exact ⟨fun _ => ⟨hpos, Nat.lt_succ_self _⟩, fun _ => hs⟩
    · simp only [if_neg hi]
      rw [hart i]
      omega
  · intro i c h
    simp only [uploadArtwork] at h ⊢
    exact hvd i c h

theorem inv_like (st st2 : GalleryState) (sender artworkId : Nat)
    (hinv : Inv st) (h : likeArtwork st sender artworkId = .ok st2) :
    Inv st2 := by
  obtain ⟨hpos, hids, hart, hvd⟩ := hinv
  simp only [likeArtwork] at h
  split at h
  · exact absurd h (by simp)
  · rename_i hne
    injection h with h
    subst h
    constructor
    · exact hpos
    · exact hids
    · intro i
      by_cases hi : i = artworkId
      · subst hi
        simpa using hart i
      · simpa [hi] using hart i
    · intro i c hic
      exact hvd i c hic

theorem inv_vote (st st2 : GalleryState) (sender artworkId : Nat) (category : String)
    (hinv : Inv st) (h : voteArtwork st sender artworkId category = .ok st2) :
    Inv st2 := by
  obtain ⟨hpos, hids, hart, hvd⟩ := hinv
  simp only [voteArtwork] at h
  by_cases h0 : (st.artworks artworkId).artist = 0
  · rw [if_pos h0] at h
    exact absurd h (by simp)
  · rw [if_neg h0] at h
    by_cases hmem : category ∈ (st.artworks artworkId).categories
    · rw [if_pos hmem] at h
      injection h with h
      subst h
      constructor
      · exact hpos
      · exact hids
      · exact hart
      · intro i c hic
        by_cases hi : i = artworkId
        · subst hi
          by_cases hc : c = category
          · subst hc
            exfalso
            by_cases hinit : st.votesInit i c = true
            · simp [hinit] at hic
            · simp [hinit] at hic
          · have hvic : st.votesInit i c = false := by
              by_cases hinit : st.votesInit i category = true
              · simpa [hinit] using hic
              · simpa [hinit, hc] using hic
            simp [hc, hvd i c hvic]
        · have hvic : st.votesInit i c = false := by
            by_cases hinit : st.votesInit artworkId category = true
            · simpa [hinit] using hic
            · simpa [hinit, hi] using hic
          simp [hi, hvd i c hvic]
    · rw [if_neg hmem] at h
      exact absurd h (by simp)

theorem reachable_inv (st : GalleryState) (h : Reachable st) : Inv st := by
  induction h with
  | init => exact inv_initial
  | upload st sender blockTs title descriptionHash fileHash tags categories _ hs ih =>
      exact inv_upload st sender blockTs title descriptionHash fileHash tags categories ih hs
  | like st st2 sender artworkId _ hok ih => exact inv_like st st2 sender artworkId ih hok
  | vote st st2 sender artworkId category _ hok ih =>
      exact inv_vote st st2 sender artworkId category ih hok

/-- A concrete deployment with one artwork, uploaded by address 5 with
declared categories `["a", "b"]`. -/
def galleryDemo0 : GalleryState :=
  (uploadArtwork initialState 5 0 "title" "descHash" "fileHash" [] ["a", "b"]).2

/-- The state after `n` successful `likeArtwork` transactions on artwork 1
of `galleryDemo0` (as an `Except`, since each call could in principle
revert). -/
def likeN : Nat → Except String GalleryState
  | 0 => .ok galleryDemo0
  | n + 1 =>
    match likeN n with
    | .ok st => likeArtwork st 5 1
    | .error e => .error e

/-- The state reached by `likeN`, with a dummy default on the (never
taken) revert branch. -/
def stN (n : Nat) : GalleryState :=
  match likeN n with
  | .ok st => st
  | .error _ => initialState

/-- The plaintext behind artwork 1's current like-counter handle. -/
def likesValue (st : GalleryState) : Nat :=
  st.fhe.plain ((st.artworks 1).likesEnc)

theorem likeN_spec (n : Nat) :
    likeN n = .ok (stN n) ∧ ((stN n).artworks 1).artist = 5 ∧
    likesValue (stN n) = n % U32 := by
  induction n with
  | zero => exact ⟨rfl, rfl, rfl⟩
  | succ n ih =>
    obtain ⟨hok, hart, hval⟩ := ih
    have hstep : likeN (n + 1) = likeArtwork (stN n) 5 1 := by
      show (match likeN n with
        | .ok st => likeArtwork st 5 1
        | .error e => .error e) = likeArtwork (stN n) 5 1
      rw [hok]
    have hne : ¬ ((stN n).artworks 1).artist = 0 := by
      rw [hart]; decide
    have hex : ∃ st2, likeArtwork (stN n) 5 1 = .ok st2 := by
      simp only [likeArtwork]
      rw [if_neg hne]
      exact ⟨_, rfl⟩
    obtain ⟨st2, hst2⟩ := hex
    have hstN : stN (n + 1) = st2 := by
      show (match likeN (n + 1) with
        | .ok st => st
        | .error _ => initialState) = st2
      rw [hstep, hst2]
    have hst2b := hst2
    simp only [likeArtwork] at hst2b
    rw [if_neg hne] at hst2b
    injection hst2b with hrec
    refine ⟨?_, ?_, ?_⟩
    · rw [hstep, hst2, hstN]
    · rw [hstN, ← hrec]
      simp [hart]
    · have hmod : (n % U32 + 1) % U32 = (n + 1) % U32 := by
        simp only [U32]
        omega
      simp only [likesValue] at hval
      rw [likesValue, hstN, ← hrec]
      simp [FheState.addScalar, hval, hmod]

/-- Claim C5 (confirmed): `voteArtwork` called with a category key that is
not in the artwork's declared category set reverts with the
category-not-allowed message, and the reverted transaction leaves the
whole state — in particular every overall and per-category counter of
every artwork — unchanged. -/
theorem voteArtwork_categoryNotAllowed (st : GalleryState) (sender artworkId : Nat)
    (category : String)
    (hex : (st.artworks artworkId).artist ≠ 0)
    (hcat : category ∉ (st.artworks artworkId).categories) :
    voteArtwork st sender artworkId category = .error "Artwork does not belong to this category" ∧
    applyCall st (voteArtwork st sender artworkId category) = st := by
  have h1 : voteArtwork st sender artworkId category =
      .error "Artwork does not belong to this category" := by
    simp only [voteArtwork]
    rw [if_neg hex, if_neg hcat]
  refine ⟨h1, ?_⟩
  rw [h1]
  rfl

theorem voteArtwork_categoryNotAllowed_witness :
    voteArtwork galleryDemo0 9 1 "c" = .error "Artwork does not belong to this category" ∧
    applyCall galleryDemo0 (voteArtwork galleryDemo0 9 1 "c") = galleryDemo0 :=
  voteArtwork_categoryNotAllowed galleryDemo0 9 1 "c" (by decide) (by decide)

/-- Claim C6 counterexample: the like counter is a 32-bit encrypted
counter, so after 2^32 successful increments it decrypts to 0, not 2^32,
and its plaintext strictly decreases at the wrapping step — refuting both
"after n successful increments it decrypts to n" and unqualified
monotonic non-decrease. -/
theorem likes_counter_wraps_at_two_pow_32 :
    likeN 4294967296 = .ok (stN 4294967296) ∧
    likesValue (stN 4294967296) = 0 ∧
    likesValue (stN 4294967295) = 4294967295 ∧
    ¬ likesValue (stN 4294967296) = 4294967296 := by
  obtain ⟨hok, -, hval⟩ := likeN_spec 4294967296
  obtain ⟨-, -, hval2⟩ := likeN_spec 4294967295
  refine ⟨hok, ?_, ?_, ?_⟩
  · rw [hval]
    show 4294967296 % 4294967296 = 0
    omega
  · rw [hval2]
    show 4294967295 % 4294967296 = 4294967295
    omega
  · rw [hval]
    show ¬ 4294967296 % 4294967296 = 4294967296
    omega

/-- Claim C9 (confirmed): on every reachable state, `getVotes` succeeds on
every `(artworkId, category)` input — ids never created and categories
outside the declared set included — returning the stored handle, which is
the mapping's zero default whenever the pair was never initialized by a
successful vote; in contrast `getArtwork` reverts for every id outside
the listing. -/
theorem getVotes_total_vs_getArtwork (st : GalleryState) (h : Reachable st) :
    (∀ i c, getVotes st i c = st.votes i c) ∧
    (∀ i c, st.votesInit i c = false → getVotes st i c = 0) ∧
    (∀ i, i ∉ st.artworkIds → getArtwork st i = .error "Artwork not found") := by
  obtain ⟨hpos, hids, hart, hvd⟩ := reachable_inv st h
  refine ⟨fun i c => rfl, fun i c hic => hvd i c hic, fun i hi => ?_⟩
  have h0 : ¬ (1 ≤ i ∧ i < st.nextArtworkId) := by
    intro hcon
    apply hi
    rw [hids, List.mem_range'_1]
    omega
  have hz : (st.artworks i).artist = 0 := by
    by_contra hne
    exact h0 ((hart i).mp hne)
  simp [getArtwork, hz]

theorem getVotes_total_vs_getArtwork_witness :
    getVotes initialState 7 "x" = 0 ∧
    getArtwork initialState 7 = .error "Artwork not found" := by
  obtain ⟨-, h2, h3⟩ := getVotes_total_vs_getArtwork initialState Reachable.init
  exact ⟨h2 7 "x" rfl, h3 7 (by simp [initialState])⟩

/-- Claim C10 (confirmed): ids are allocated sequentially starting at 1:
on every reachable state the listing returned by `getAllArtworks` is
exactly `[1, …, nextArtworkId-1]` in creation order, `getArtwork`
succeeds on every listed id, and each `uploadArtwork` allocates
`nextArtworkId` and appends it to the listing. -/
theorem artworkIds_sequential (st : GalleryState) (h : Reachable st) :
    getAllArtworks st = List.range' 1 (st.nextArtworkId - 1) ∧
    (∀ i, i ∈ getAllArtworks st → ∃ a, getArtwork st i = .ok a) ∧
    (∀ sender blockTs title descriptionHash fileHash tags categories,
      (uploadArtwork st sender blockTs title descriptionHash fileHash tags categories).1 =
        st.nextArtworkId ∧
      getAllArtworks (uploadArtwork st sender blockTs title descriptionHash fileHash tags categories).2 =
        getAllArtworks st ++ [st.nextArtworkId]) := by
  obtain ⟨hpos, hids, hart, hvd⟩ := reachable_inv st h
  refine ⟨hids, ?_, ?_⟩
  · intro i hi
    rw [getAllArtworks, hids, List.mem_range'_1] at hi
    have hne : (st.artworks i).artist ≠ 0 := (hart i).mpr (by omega)
    refine ⟨st.artworks i, ?_⟩
    simp only [getArtwork]
    rw [if_neg hne]
  · intro sender blockTs title descriptionHash fileHash tags categories
    exact ⟨rfl, rfl⟩

theorem artworkIds_sequential_witness :
    getAllArtworks initialState = List.range' 1 0 ∧
    (uploadArtwork initialState 5 0 "t" "d" "f" [] []).1 = 1 ∧
    getAllArtworks (uploadArtwork initialState 5 0 "t" "d" "f" [] []).2 =
      getAllArtworks initialState ++ [1] := by
  obtain ⟨h1, -, h3⟩ := artworkIds_sequential initialState Reachable.init
  obtain ⟨h4, h5⟩ := h3 5 0 "t" "d" "f" [] []
  exact ⟨h1, h4, h5⟩

/-! ### Counter values along arbitrary call sequences

To settle the counter claim for *every* aggregate counter — the overall
like counter of every artwork and every per-category vote counter — and
*every* sequence of contract calls, traces are lists of calls (`Op`)
executed from the deployed state with revert semantics.  `likeInc` /
`voteInc` record whether one call is a successful increment of one
particular counter, and `likeCount` / `voteCount` add these up along a
trace.  The invariant `HInv` tracks what the proofs need about the FHE
side table: handles stored in counters are allocated (below
`nextHandle`), every stored plaintext is reduced mod 2^32, the
zero-default handle decrypts to 0, and never-written artwork slots and
never-initialized vote slots still hold their mapping defaults. -/

theorem U32_pos : 0 < U32 := by norm_num [U32]

theorem asEuint32_plain_lt (f : FheState) (v h : Nat) (hh : h < f.nextHandle) :
    (f.asEuint32 v).2.plain h = f.plain h := by
  show (if h = f.nextHandle then v % U32 else f.plain h) = f.plain h
  rw [if_neg (by omega)]

theorem addScalar_plain_lt (f : FheState) (h0 k h : Nat) (hh : h < f.nextHandle) :
    (f.addScalar h0 k).2.plain h = f.plain h := by
  show (if h = f.nextHandle then (f.plain h0 + k) % U32 else f.plain h) = f.plain h
  rw [if_neg (by omega)]

theorem addScalar_plain_self (f : FheState) (h0 k : Nat) :
    (f.addScalar h0 k).2.plain (f.addScalar h0 k).1 = (f.plain h0 + k) % U32 := by
  show (if f.nextHandle = f.nextHandle then (f.plain h0 + k) % U32 else f.plain f.nextHandle) =
    (f.plain h0 + k) % U32
  rw [if_pos rfl]

theorem asEuint32_plain_self (f : FheState) (v : Nat) :
    (f.asEuint32 v).2.plain (f.asEuint32 v).1 = v % U32 := by
  show (if f.nextHandle = f.nextHandle then v % U32 else f.plain f.nextHandle) = v % U32
  rw [if_pos rfl]

/-- FHE side-table invariant maintained by every contract call. -/
structure HInv (st : GalleryState) : Prop where
  handlePos : 1 ≤ st.fhe.nextHandle
  plainZero : st.fhe.plain 0 = 0
  plainLt : ∀ h, st.fhe.plain h < U32
  likesLt : ∀ i, (st.artworks i).likesEnc < st.fhe.nextHandle
  votesLt : ∀ i c, st.votes i c < st.fhe.nextHandle
  unalloc : ∀ i, st.nextArtworkId ≤ i → st.artworks i = emptyArtwork
  votesDefault : ∀ i c, st.votesInit i c = false → st.votes i c = 0

theorem hinv_initial : HInv initialState := by
  constructor
  · exact Nat.le_refl 1
  · rfl
  · intro h
    exact U32_pos
  · intro i
    exact Nat.zero_lt_one
  · intro i c
    exact Nat.zero_lt_one
  · intro i _
    rfl
  · intro i c _
    rfl

/-- One contract call, with the transaction context (`msg.sender`,
`block.timestamp`) baked in. -/
inductive Op
  | upload (sender blockTs : Nat) (title descriptionHash fileHash : String)
      (tags categories : List String)
  | like (sender artworkId : Nat)
  | vote (sender artworkId : Nat) (category : String)

/-- Execute one call with revert semantics. -/
def execOp (st : GalleryState) (op : Op) : GalleryState :=
  match op with
  | .upload s ts t d f tg cs => (uploadArtwork st s ts t d f tg cs).2
  | .like s i => applyCall st (likeArtwork st s i)
  | .vote s i c => applyCall st (voteArtwork st s i c)

/-- 1 when the call is a successful increment of artwork `id`'s like
counter, 0 otherwise. -/
def likeInc (st : GalleryState) (op : Op) (id : Nat) : Nat :=
  match op with
  | .like s i =>
    match likeArtwork st s i with
    | .ok _ => if i = id then 1 else 0
    | .error _ => 0
  | _ => 0

/-- 1 when the call is a successful increment of the `(id, c)` vote
counter, 0 otherwise. -/
def voteInc (st : GalleryState) (op : Op) (id : Nat) (c : String) : Nat :=
  match op with
  | .vote s i cat =>
    match voteArtwork st s i cat with
    | .ok _ => if i = id ∧ cat = c then 1 else 0
    | .error _ => 0
  | _ => 0

/-- The plaintext behind artwork `artworkId`'s current like-counter handle. -/
def likesValueAt (st : GalleryState) (artworkId : Nat) : Nat :=
  st.fhe.plain ((st.artworks artworkId).likesEnc)

/-- The plaintext behind the `(artworkId, category)` vote-counter handle. -/
def votesValueAt (st : GalleryState) (artworkId : Nat) (category : String) : Nat :=
  st.fhe.plain (st.votes artworkId category)

def runOps (st : GalleryState) (ops : List Op) : GalleryState :=
  ops.foldl execOp st

theorem runOps_cons (st : GalleryState) (op : Op) (ops : List Op) :
    runOps st (op :: ops) = runOps (execOp st op) ops := rfl

/-- The state after running a call sequence from deployment. -/
def execTrace (ops : List Op) : GalleryState :=
  runOps initialState ops

/-- Number of successful increments of artwork `id`'s like counter along
a trace run from `st`. -/
def likeCount : List Op → GalleryState → Nat → Nat
  | [], _, _ => 0
  | op :: ops, st, id => likeInc st op id + likeCount ops (execOp st op) id

/-- Number of successful increments of the `(id, c)` vote counter along a
trace run from `st`. -/
def voteCount : List Op → GalleryState → Nat → String → Nat
  | [], _, _, _ => 0
  | op :: ops, st, id, c => voteInc st op id c + voteCount ops (execOp st op) id c

theorem exec_upload_step (st : GalleryState) (s ts : Nat) (t d f : String)
    (tg cs : List String) (hinv : HInv st) :
    HInv (execOp st (.upload s ts t d f tg cs)) ∧
    (∀ id, likesValueAt (execOp st (.upload s ts t d f tg cs)) id =
      (likesValueAt st id + likeInc st (.upload s ts t d f tg cs) id) % U32) ∧
    (∀ id c, votesValueAt (execOp st (.upload s ts t d f tg cs)) id c =
      (votesValueAt st id c + voteInc st (.upload s ts t d f tg cs) id c) % U32) := by
  obtain ⟨hpos, hz, hlt, hll, hvl, hun, hvd⟩ := hinv
  have hfhe : (execOp st (.upload s ts t d f tg cs)).fhe = (st.fhe.asEuint32 0).2 := rfl
  have hartOld : ∀ j, j ≠ st.nextArtworkId →
      (execOp st (.upload s ts t d f tg cs)).artworks j = st.artworks j := by
    intro j hj
    simp only [execOp, uploadArtwork]
    rw [if_neg hj]
  have hencNew : ((execOp st (.upload s ts t d f tg cs)).artworks st.nextArtworkId).likesEnc =
      st.fhe.nextHandle := by
    simp only [execOp, uploadArtwork]
    rw [if_pos trivial]
    rfl
  have hvotesEq : (execOp st (.upload s ts t d f tg cs)).votes = st.votes := rfl
  have hvinitEq : (execOp st (.upload s ts t d f tg cs)).votesInit = st.votesInit := rfl
  have hnextA : (execOp st (.upload s ts t d f tg cs)).nextArtworkId = st.nextArtworkId + 1 := rfl
  refine ⟨⟨?_, ?_, ?_, ?_, ?_, ?_, ?_⟩, ?_, ?_⟩
  · show 1 ≤ st.fhe.nextHandle + 1
    omega
  · show (if 0 = st.fhe.nextHandle then 0 % U32 else st.fhe.plain 0) = 0
    rw [if_neg (by omega), hz]
  · intro h
    show (if h = st.fhe.nextHandle then 0 % U32 else st.fhe.plain h) < U32
    by_cases hh : h = st.fhe.nextHandle
    · rw [if_pos hh]
      exact Nat.mod_lt _ U32_pos
    · rw [if_neg hh]
      exact hlt h
  · intro j
    by_cases hj : j = st.nextArtworkId
    · subst hj
      rw [hencNew]
      show st.fhe.nextHandle < st.fhe.nextHandle + 1
      omega
    · rw [hartOld j hj]
      show (st.artworks j).likesEnc < st.fhe.nextHandle + 1
      exact Nat.lt_succ_of_lt (hll j)
  · intro j c
    rw [hvotesEq]
    show st.votes j c < st.fhe.nextHandle + 1
    exact Nat.lt_succ_of_lt (hvl j c)
  · intro j hj
    rw [hnextA] at hj
    have hjne : j ≠ st.nextArtworkId := by omega
    rw [hartOld j hjne]
    exact hun j (by omega)
  · intro j c hjc
    rw [hvinitEq] at hjc
    rw [hvotesEq]
    exact hvd j c hjc
  · intro id
    rw [show likeInc st (.upload s ts t d f tg cs) id = 0 from rfl, Nat.add_zero]
    by_cases hid : id = st.nextArtworkId
    · subst hid
      simp only [likesValueAt]
      rw [hencNew, hfhe]
      have hv : (st.fhe.asEuint32 0).2.plain st.fhe.nextHandle = 0 := by
        show (if st.fhe.nextHandle = st.fhe.nextHandle then 0 % U32
          else st.fhe.plain st.fhe.nextHandle) = 0
        rw [if_pos rfl, Nat.zero_mod]
      rw [hv]
      have h2 : (st.artworks st.nextArtworkId).likesEnc = 0 := by
        rw [hun st.nextArtworkId (Nat.le_refl _)]
        rfl
      rw [h2, hz, Nat.zero_mod]
    · simp only [likesValueAt]
      rw [hartOld id hid, hfhe, asEuint32_plain_lt st.fhe 0 _ (hll id),
        Nat.mod_eq_of_lt (hlt _)]
  · intro id c
    rw [show voteInc st (.upload s ts t d f tg cs) id c = 0 from rfl, Nat.add_zero]
    simp only [votesValueAt]
    rw [hvotesEq, hfhe, asEuint32_plain_lt st.fhe 0 _ (hvl id c), Nat.mod_eq_of_lt (hlt _)]

theorem exec_like_step (st : GalleryState) (s i : Nat) (hinv : HInv st) :
    HInv (execOp st (.like s i)) ∧
    (∀ id, likesValueAt (execOp st (.like s i)) id =
      (likesValueAt st id + likeInc st (.like s i) id) % U32) ∧
    (∀ id c, votesValueAt (execOp st (.like s i)) id c =
      (votesValueAt st id c + voteInc st (.like s i) id c) % U32) := by
  obtain ⟨hpos, hz, hlt, hll, hvl, hun, hvd⟩ := hinv
  by_cases h0 : (st.artworks i).artist = 0
  · have hexec : execOp st (Op.like s i) = st := by
      simp [execOp, likeArtwork, h0, applyCall]
    have hinc : ∀ id, likeInc st (Op.like s i) id = 0 := by
      intro id
      simp [likeInc, likeArtwork, h0]
    rw [hexec]
    refine ⟨⟨hpos, hz, hlt, hll, hvl, hun, hvd⟩, ?_, ?_⟩
    · intro id
      rw [hinc id, Nat.add_zero,
        Nat.mod_eq_of_lt (show likesValueAt st id < U32 from hlt _)]
    · intro id c
      rw [show voteInc st (Op.like s i) id c = 0 from rfl, Nat.add_zero,
        Nat.mod_eq_of_lt (show votesValueAt st id c < U32 from hlt _)]
  · have hlti : i < st.nextArtworkId := by
      by_contra hge
      push_neg at hge
      rw [hun i hge] at h0
      exact h0 rfl
    have hfhe : (execOp st (Op.like s i)).fhe =
        (st.fhe.addScalar (st.artworks i).likesEnc 1).2 := by
      simp [execOp, likeArtwork, h0, applyCall]
    have hartOld : ∀ j, j ≠ i → (execOp st (Op.like s i)).artworks j = st.artworks j := by
      intro j hj
      simp [execOp, likeArtwork, h0, applyCall, hj]
    have hencNew : ((execOp st (Op.like s i)).artworks i).likesEnc = st.fhe.nextHandle := by
      simp [execOp, likeArtwork, h0, applyCall, FheState.addScalar]
    have hvotesEq : (execOp st (Op.like s i)).votes = st.votes := by
      simp [execOp, likeArtwork, h0, applyCall]
    have hvinitEq : (execOp st (Op.like s i)).votesInit = st.votesInit := by
      simp [execOp, likeArtwork, h0, applyCall]
    have hnextA : (execOp st (Op.like s i)).nextArtworkId = st.nextArtworkId := by
      simp [execOp, likeArtwork, h0, applyCall]
    have hnextH : (execOp st (Op.like s i)).fhe.nextHandle = st.fhe.nextHandle + 1 := by
      rw [hfhe]
      rfl
    refine ⟨⟨?_, ?_, ?_, ?_, ?_, ?_, ?_⟩, ?_, ?_⟩
    · rw [hnextH]
      omega
    · rw [hfhe]
      show (if 0 = st.fhe.nextHandle then (st.fhe.plain (st.artworks i).likesEnc + 1) % U32
        else st.fhe.plain 0) = 0
      rw [if_neg (by omega), hz]
    · intro h
      rw [hfhe]
      show (if h = st.fhe.nextHandle then (st.fhe.plain (st.artworks i).likesEnc + 1) % U32
        else st.fhe.plain h) < U32
      by_cases hh : h = st.fhe.nextHandle
      · rw [if_pos hh]
        exact Nat.mod_lt _ U32_pos
      · rw [if_neg hh]
        exact hlt h
    · intro j
      rw [hnextH]
      by_cases hj : j = i
      · subst hj
        rw [hencNew]
        omega
      · rw [hartOld j hj]
        exact Nat.lt_succ_of_lt (hll j)
    · intro j c
      rw [hnextH, hvotesEq]
      exact Nat.lt_succ_of_lt (hvl j c)
    · intro j hj
      rw [hnextA] at hj
      have hjne : j ≠ i := by omega
      rw [hartOld j hjne]
      exact hun j hj
    · intro j c hjc
      rw [hvinitEq] at hjc
      rw [hvotesEq]
      exact hvd j c hjc
    · intro id
      by_cases hid : id = i
      · subst hid
        have hinc1 : likeInc st (Op.like s id) id = 1 := by
          simp [likeInc, likeArtwork, h0]
        simp only [likesValueAt]
        rw [hencNew, hfhe]
        have hv : (st.fhe.addScalar (st.artworks id).likesEnc 1).2.plain st.fhe.nextHandle =
            (st.fhe.plain (st.artworks id).likesEnc + 1) % U32 := by
          show (if st.fhe.nextHandle = st.fhe.nextHandle then
              (st.fhe.plain (st.artworks id).likesEnc + 1) % U32
            else st.fhe.plain st.fhe.nextHandle) = _
          rw [if_pos rfl]
        rw [hv, hinc1]
      · have hinc0 : likeInc st (Op.like s i) id = 0 := by
          have hii : ¬ i = id := fun hh => hid hh.symm
          simp [likeInc, likeArtwork, h0, hii]
        simp only [likesValueAt]
        rw [hartOld id hid, hfhe, addScalar_plain_lt _ _ _ _ (hll id), hinc0, Nat.add_zero,
          Nat.mod_eq_of_lt (hlt _)]
    · intro id c
      simp only [votesValueAt]
      rw [hvotesEq, hfhe, addScalar_plain_lt _ _ _ _ (hvl id c),
        show voteInc st (Op.like s i) id c = 0 from rfl, Nat.add_zero,
        Nat.mod_eq_of_lt (hlt _)]

theorem exec_vote_step (st : GalleryState) (s i : Nat) (cat : String) (hinv : HInv st) :
    HInv (execOp st (.vote s i cat)) ∧
    (∀ id, likesValueAt (execOp st (.vote s i cat)) id =
      (likesValueAt st id + likeInc st (.vote s i cat) id) % U32) ∧
    (∀ id c, votesValueAt (execOp st (.vote s i cat)) id c =
      (votesValueAt st id c + voteInc st (.vote s i cat) id c) % U32) := by
  obtain ⟨hpos, hz, hlt, hll, hvl, hun, hvd⟩ := hinv
  by_cases h0 : (st.artworks i).artist = 0
  · have hexec : execOp st (Op.vote s i cat) = st := by
      simp [execOp, voteArtwork, h0, applyCall]
    have hvinc : ∀ id c, voteInc st (Op.vote s i cat) id c = 0 := by
      intro id c
      simp [voteInc, voteArtwork, h0]
    rw [hexec]
    refine ⟨⟨hpos, hz, hlt, hll, hvl, hun, hvd⟩, ?_, ?_⟩
    · intro id
      rw [show likeInc st (Op.vote s i cat) id = 0 from rfl, Nat.add_zero,
        Nat.mod_eq_of_lt (show likesValueAt st id < U32 from hlt _)]
    · intro id c
      rw [hvinc id c, Nat.add_zero,
        Nat.mod_eq_of_lt (show votesValueAt st id c < U32 from hlt _)]
  · by_cases hmem : cat ∈ (st.artworks i).categories
    · by_cases hinit : st.votesInit i cat = true
      · -- already-initialized category: one fresh handle
        have hfhe : (execOp st (Op.vote s i cat)).fhe =
            (st.fhe.addScalar (st.votes i cat) 1).2 := by
          simp [execOp, voteArtwork, h0, hmem, hinit, applyCall]
        have hvotesDesc : ∀ j c, (execOp st (Op.vote s i cat)).votes j c =
            if j = i then
              (if c = cat then (st.fhe.addScalar (st.votes i cat) 1).1 else st.votes j c)
            else st.votes j c := by
          intro j c
          simp [execOp, voteArtwork, h0, hmem, hinit, applyCall]
        have hvinitEq : (execOp st (Op.vote s i cat)).votesInit = st.votesInit := by
          simp [execOp, voteArtwork, h0, hmem, hinit, applyCall]
        have hartEq : (execOp st (Op.vote s i cat)).artworks = st.artworks := by
          simp [execOp, voteArtwork, h0, hmem, hinit, applyCall]
        have hnextA : (execOp st (Op.vote s i cat)).nextArtworkId = st.nextArtworkId := by
          simp [execOp, voteArtwork, h0, hmem, hinit, applyCall]
        have hnextH : (execOp st (Op.vote s i cat)).fhe.nextHandle = st.fhe.nextHandle + 1 := by
          rw [hfhe]
          rfl
        have hvincEq : ∀ id c, voteInc st (Op.vote s i cat) id c =
            if i = id ∧ cat = c then 1 else 0 := by
          intro id c
          simp [voteInc, voteArtwork, h0, hmem, hinit]
        refine ⟨⟨?_, ?_, ?_, ?_, ?_, ?_, ?_⟩, ?_, ?_⟩
        · rw [hnextH]
          omega
        · rw [hfhe]
          show (if 0 = st.fhe.nextHandle then (st.fhe.plain (st.votes i cat) + 1) % U32
            else st.fhe.plain 0) = 0
          rw [if_neg (by omega), hz]
        · intro h
          rw [hfhe]
          show (if h = st.fhe.nextHandle then (st.fhe.plain (st.votes i cat) + 1) % U32
            else st.fhe.plain h) < U32
          by_cases hh : h = st.fhe.nextHandle
          · rw [if_pos hh]
            exact Nat.mod_lt _ U32_pos
          · rw [if_neg hh]
            exact hlt h
        · intro j
          rw [hnextH, hartEq]
          exact Nat.lt_succ_of_lt (hll j)
        · intro j c
          rw [hnextH, hvotesDesc j c]
          by_cases hj : j = i
          · subst hj
            by_cases hc : c = cat
            · rw [if_pos rfl, if_pos hc]
              show st.fhe.nextHandle < st.fhe.nextHandle + 1
              omega
            · rw [if_pos rfl, if_neg hc]
              exact Nat.lt_succ_of_lt (hvl j c)
          · rw [if_neg hj]
            exact Nat.lt_succ_of_lt (hvl j c)
        · intro j hj
          rw [hnextA] at hj
          rw [hartEq]
          exact hun j hj
        · intro j c hjc
          rw [hvinitEq] at hjc
          rw [hvotesDesc j c]
          by_cases hj : j = i
          · subst hj
            by_cases hc : c = cat
            · subst hc
              rw [hjc] at hinit
              exact absurd hinit (by simp)
            · rw [if_pos rfl, if_neg hc]
              exact hvd j c hjc
          · rw [if_neg hj]
            exact hvd j c hjc
        · intro id
          simp only [likesValueAt]
          rw [hartEq, hfhe, addScalar_plain_lt _ _ _ _ (hll id),
            show likeInc st (Op.vote s i cat) id = 0 from rfl, Nat.add_zero,
            Nat.mod_eq_of_lt (hlt _)]
        · intro id c
          simp only [votesValueAt]
          rw [hvotesDesc id c, hvincEq id c, hfhe]
          by_cases hj : id = i
          · subst hj
            by_cases hc : c = cat
            · subst hc
              rw [if_pos rfl, if_pos rfl, addScalar_plain_self, if_pos ⟨rfl, rfl⟩]
            · rw [if_pos rfl, if_neg hc, addScalar_plain_lt _ _ _ _ (hvl id c),
                if_neg (fun hand => hc hand.2.symm), Nat.add_zero,
                Nat.mod_eq_of_lt (hlt _)]
          · rw [if_neg hj, addScalar_plain_lt _ _ _ _ (hvl id c),
              if_neg (fun hand => hj hand.1.symm), Nat.add_zero,
              Nat.mod_eq_of_lt (hlt _)]
      · -- first touch of the category: encrypted zero, then add 1
        have hinitF : st.votesInit i cat = false := by
          cases hb : st.votesInit i cat
          · rfl
          · exact absurd hb hinit
        have hfhe : (execOp st (Op.vote s i cat)).fhe =
            ((st.fhe.asEuint32 0).2.addScalar (st.fhe.asEuint32 0).1 1).2 := by
          simp [execOp, voteArtwork, h0, hmem, hinitF, applyCall]
        have hvotesDesc : ∀ j c, (execOp st (Op.vote s i cat)).votes j c =
            if j = i then
              (if c = cat then ((st.fhe.asEuint32 0).2.addScalar (st.fhe.asEuint32 0).1 1).1
               else st.votes j c)
            else st.votes j c := by
          intro j c
          simp [execOp, voteArtwork, h0, hmem, hinitF, applyCall]
        have hvinitDesc : ∀ j c, (execOp st (Op.vote s i cat)).votesInit j c =
            if j = i then (if c = cat then true else st.votesInit j c) else st.votesInit j c := by
          intro j c
          simp [execOp, voteArtwork, h0, hmem, hinitF, applyCall]
        have hartEq : (execOp st (Op.vote s i cat)).artworks = st.artworks := by
          simp [execOp, voteArtwork, h0, hmem, hinitF, applyCall]
        have hnextA : (execOp st (Op.vote s i cat)).nextArtworkId = st.nextArtworkId := by
          simp [execOp, voteArtwork, h0, hmem, hinitF, applyCall]
        have hnextH : (execOp st (Op.vote s i cat)).fhe.nextHandle = st.fhe.nextHandle + 2 := by
          rw [hfhe]
          rfl
        have hvincEq : ∀ id c, voteInc st (Op.vote s i cat) id c =
            if i = id ∧ cat = c then 1 else 0 := by
          intro id c
          simp [voteInc, voteArtwork, h0, hmem, hinitF]
        have hplain2 : ∀ h, h < st.fhe.nextHandle →
            (execOp st (Op.vote s i cat)).fhe.plain h = st.fhe.plain h := by
          intro h hh
          rw [hfhe,
            addScalar_plain_lt _ _ _ _ (show h < st.fhe.nextHandle + 1 by omega),
            asEuint32_plain_lt _ _ _ hh]
        have hvalNew : (execOp st (Op.vote s i cat)).fhe.plain
            ((st.fhe.asEuint32 0).2.addScalar (st.fhe.asEuint32 0).1 1).1 = 1 % U32 := by
          rw [hfhe, addScalar_plain_self, asEuint32_plain_self, Nat.zero_mod, Nat.zero_add]
        refine ⟨⟨?_, ?_, ?_, ?_, ?_, ?_, ?_⟩, ?_, ?_⟩
        · rw [hnextH]
          omega
        · rw [hplain2 0 (by omega), hz]
        · intro h
          rw [hfhe]
          show (if h = (st.fhe.asEuint32 0).2.nextHandle then
              ((st.fhe.asEuint32 0).2.plain (st.fhe.asEuint32 0).1 + 1) % U32
            else (st.fhe.asEuint32 0).2.plain h) < U32
          by_cases h2 : h = (st.fhe.asEuint32 0).2.nextHandle
          · rw [if_pos h2]
            exact Nat.mod_lt _ U32_pos
          · rw [if_neg h2]
            show (if h = st.fhe.nextHandle then 0 % U32 else st.fhe.plain h) < U32
            by_cases h3 : h = st.fhe.nextHandle
            · rw [if_pos h3]
              exact Nat.mod_lt _ U32_pos
            · rw [if_neg h3]
              exact hlt h
        · intro j
          rw [hnextH, hartEq]
          have := hll j
          omega
        · intro j c
          rw [hnextH, hvotesDesc j c]
          by_cases hj : j = i
          · subst hj
            by_cases hc : c = cat
            · rw [if_pos rfl, if_pos hc]
              show st.fhe.nextHandle + 1 < st.fhe.nextHandle + 2
              omega
            · rw [if_pos rfl, if_neg hc]
              have := hvl j c
              omega
          · rw [if_neg hj]
            have := hvl j c
            omega
        · intro j hj
          rw [hnextA] at hj
          rw [hartEq]
          exact hun j hj
        · intro j c hjc
          rw [hvinitDesc j c] at hjc
          rw [hvotesDesc j c]
          by_cases hj : j = i
          · subst hj
            by_cases hc : c = cat
            · rw [if_pos rfl, if_pos hc] at hjc
              exact absurd hjc (by simp)
            · rw [if_pos rfl, if_neg hc] at hjc
              rw [if_pos rfl, if_neg hc]
              exact hvd j c hjc
          · rw [if_neg hj] at hjc
            rw [if_neg hj]
            exact hvd j c hjc
        · intro id
          simp only [likesValueAt]
          rw [hartEq, hplain2 ((st.artworks id).likesEnc) (hll id),
            show likeInc st (Op.vote s i cat) id = 0 from rfl, Nat.add_zero,
            Nat.mod_eq_of_lt (hlt _)]
        · intro id c
          simp only [votesValueAt]
          rw [hvotesDesc id c, hvincEq id c]
          by_cases hj : id = i
          · subst hj
            by_cases hc : c = cat
            · subst hc
              rw [if_pos rfl, if_pos rfl, hvalNew, if_pos ⟨rfl, rfl⟩,
                hvd id c hinitF, hz, Nat.zero_add]
            · rw [if_pos rfl, if_neg hc, hplain2 (st.votes id c) (hvl id c),
                if_neg (fun hand => hc hand.2.symm), Nat.add_zero,
                Nat.mod_eq_of_lt (hlt _)]
          · rw [if_neg hj, hplain2 (st.votes id c) (hvl id c),
              if_neg (fun hand => hj hand.1.symm), Nat.add_zero,
              Nat.mod_eq_of_lt (hlt _)]
    · -- category not declared: revert
      have hexec : execOp st (Op.vote s i cat) = st := by
        simp [execOp, voteArtwork, h0, hmem, applyCall]
      have hvinc : ∀ id c, voteInc st (Op.vote s i cat) id c = 0 := by
        intro id c
        simp [voteInc, voteArtwork, h0, hmem]
      rw [hexec]
      refine ⟨⟨hpos, hz, hlt, hll, hvl, hun, hvd⟩, ?_, ?_⟩
      · intro id
        rw [show likeInc st (Op.vote s i cat) id = 0 from rfl, Nat.add_zero,
          Nat.mod_eq_of_lt (show likesValueAt st id < U32 from hlt _)]
      · intro id c
        rw [hvinc id c, Nat.add_zero,
          Nat.mod_eq_of_lt (show votesValueAt st id c < U32 from hlt _)]

theorem exec_step (st : GalleryState) (op : Op) (hinv : HInv st) :
    HInv (execOp st op) ∧
    (∀ id, likesValueAt (execOp st op) id =
      (likesValueAt st id + likeInc st op id) % U32) ∧
    (∀ id c, votesValueAt (execOp st op) id c =
      (votesValueAt st id c + voteInc st op id c) % U32) := by
  cases op with
  | upload s ts t d f tg cs => exact exec_upload_step st s ts t d f tg cs hinv
  | like s i => exact exec_like_step st s i hinv
  | vote s i cat => exact exec_vote_step st s i cat hinv

theorem hinv_run (ops : List Op) : ∀ st, HInv st → HInv (runOps st ops) := by
  induction ops with
  | nil => intro st h; exact h
  | cons op ops ih =>
    intro st h
    exact ih (execOp st op) (exec_step st op h).1

theorem likesValue_run (ops : List Op) : ∀ st, HInv st → ∀ id,
    likesValueAt (runOps st ops) id = (likesValueAt st id + likeCount ops st id) % U32 := by
  induction ops with
  | nil =>
    intro st h id
    show likesValueAt st id = (likesValueAt st id + 0) % U32
    rw [Nat.add_zero, Nat.mod_eq_of_lt (show likesValueAt st id < U32 from h.plainLt _)]
  | cons op ops ih =>
    intro st h id
    rw [runOps_cons, ih (execOp st op) (exec_step st op h).1 id, (exec_step st op h).2.1 id,
      show likeCount (op :: ops) st id = likeInc st op id + likeCount ops (execOp st op) id
        from rfl,
      Nat.mod_add_mod, Nat.add_assoc]

theorem votesValue_run (ops : List Op) : ∀ st, HInv st → ∀ id c,
    votesValueAt (runOps st ops) id c =
      (votesValueAt st id c + voteCount ops st id c) % U32 := by
  induction ops with
  | nil =>
    intro st h id c
    show votesValueAt st id c = (votesValueAt st id c + 0) % U32
    rw [Nat.add_zero, Nat.mod_eq_of_lt (show votesValueAt st id c < U32 from h.plainLt _)]
  | cons op ops ih =>
    intro st h id c
    rw [runOps_cons, ih (execOp st op) (exec_step st op h).1 id c,
      (exec_step st op h).2.2 id c,
      show voteCount (op :: ops) st id c = voteInc st op id c + voteCount ops (execOp st op) id c
        from rfl,
      Nat.mod_add_mod, Nat.add_assoc]

theorem likeCount_append (ops more : List Op) : ∀ (st : GalleryState) (id : Nat),
    likeCount (ops ++ more) st id = likeCount ops st id + likeCount more (runOps st ops) id := by
  induction ops with
  | nil =>
    intro st id
    show likeCount more st id = 0 + likeCount more st id
    rw [Nat.zero_add]
  | cons op ops ih =>
    intro st id
    show likeInc st op id + likeCount (ops ++ more) (execOp st op) id =
      (likeInc st op id + likeCount ops (execOp st op) id) +
        likeCount more (runOps (execOp st op) ops) id
    rw [ih (execOp st op) id]
    omega

theorem voteCount_append (ops more : List Op) : ∀ (st : GalleryState) (id : Nat) (c : String),
    voteCount (ops ++ more) st id c =
      voteCount ops st id c + voteCount more (runOps st ops) id c := by
  induction ops with
  | nil =>
    intro st id c
    show voteCount more st id c = 0 + voteCount more st id c
    rw [Nat.zero_add]
  | cons op ops ih =>
    intro st id c
    show voteInc st op id c + voteCount (ops ++ more) (execOp st op) id c =
      (voteInc st op id c + voteCount ops (execOp st op) id c) +
        voteCount more (runOps (execOp st op) ops) id c
    rw [ih (execOp st op) id c]
    omega

/-- Claim C6 (amended): every aggregate counter — the overall like
counter of every artwork and every per-category vote counter — starts at
encrypted zero when first touched and is only ever mutated by
homomorphic addition of plaintext 1 *modulo 2^32*: along every sequence
of contract calls from deployment, every counter decrypts to the number
of its successful increments so far mod 2^32, and its plaintext value is
monotonically non-decreasing as long as that counter has seen fewer than
2^32 successful increments. -/
theorem aggregate_counters_mod_u32 :
    (∀ (ops : List Op) (id : Nat),
      likesValueAt (execTrace ops) id = likeCount ops initialState id % U32) ∧
    (∀ (ops : List Op) (id : Nat) (c : String),
      votesValueAt (execTrace ops) id c = voteCount ops initialState id c % U32) ∧
    (∀ (ops more : List Op) (id : Nat), likeCount (ops ++ more) initialState id < U32 →
      likesValueAt (execTrace ops) id ≤ likesValueAt (execTrace (ops ++ more)) id) ∧
    (∀ (ops more : List Op) (id : Nat) (c : String),
      voteCount (ops ++ more) initialState id c < U32 →
      votesValueAt (execTrace ops) id c ≤ votesValueAt (execTrace (ops ++ more)) id c) := by
  have hlike : ∀ (ops : List Op) (id : Nat),
      likesValueAt (execTrace ops) id = likeCount ops initialState id % U32 := by
    intro ops id
    have h := likesValue_run ops initialState hinv_initial id
    rw [show likesValueAt initialState id = 0 from rfl, Nat.zero_add] at h
    exact h
  have hvote : ∀ (ops : List Op) (id : Nat) (c : String),
      votesValueAt (execTrace ops) id c = voteCount ops initialState id c % U32 := by
    intro ops id c
    have h := votesValue_run ops initialState hinv_initial id c
    rw [show votesValueAt initialState id c = 0 from rfl, Nat.zero_add] at h
    exact h
  refine ⟨hlike, hvote, ?_, ?_⟩
  · intro ops more id hcnt
    rw [hlike ops id, hlike (ops ++ more) id, likeCount_append ops more initialState id]
    rw [likeCount_append ops more initialState id] at hcnt
    have h1 : likeCount ops initialState id < U32 := by omega
    rw [Nat.mod_eq_of_lt h1, Nat.mod_eq_of_lt hcnt]
    omega
  · intro ops more id c hcnt
    rw [hvote ops id c, hvote (ops ++ more) id c, voteCount_append ops more initialState id c]
    rw [voteCount_append ops more initialState id c] at hcnt
    have h1 : voteCount ops initialState id c < U32 := by omega
    rw [Nat.mod_eq_of_lt h1, Nat.mod_eq_of_lt hcnt]
    omega

theorem aggregate_counters_mod_u32_witness :
    likeCount ([Op.upload 5 0 "t" "d" "f" [] (["a"])] ++ [Op.like 7 1, Op.vote 7 1 "a"])
      initialState 1 < U32 ∧
    voteCount ([Op.upload 5 0 "t" "d" "f" [] (["a"])] ++ [Op.like 7 1, Op.vote 7 1 "a"])
      initialState 1 "a" < U32 ∧
    likesValueAt (execTrace [Op.upload 5 0 "t" "d" "f" [] (["a"])]) 1 ≤
      likesValueAt
        (execTrace ([Op.upload 5 0 "t" "d" "f" [] (["a"])] ++ [Op.like 7 1, Op.vote 7 1 "a"])) 1 ∧
    votesValueAt (execTrace [Op.upload 5 0 "t" "d" "f" [] (["a"])]) 1 "a" ≤
      votesValueAt
        (execTrace ([Op.upload 5 0 "t" "d" "f" [] (["a"])] ++ [Op.like 7 1, Op.vote 7 1 "a"]))
        1 "a" :=
  have h1 : likeCount ([Op.upload 5 0 "t" "d" "f" [] (["a"])] ++ [Op.like 7 1, Op.vote 7 1 "a"])
      initialState 1 < U32 := by decide
  have h2 : voteCount ([Op.upload 5 0 "t" "d" "f" [] (["a"])] ++ [Op.like 7 1, Op.vote 7 1 "a"])
      initialState 1 "a" < U32 := by decide
  ⟨h1, h2,
    aggregate_counters_mod_u32.2.2.1 [Op.upload 5 0 "t" "d" "f" [] (["a"])]
      [Op.like 7 1, Op.vote 7 1 "a"] 1 h1,
    aggregate_counters_mod_u32.2.2.2 [Op.upload 5 0 "t" "d" "f" [] (["a"])]
      [Op.like 7 1, Op.vote 7 1 "a"] 1 "a" h2⟩

end GhostGallery

namespace Frontend

/-! ### Engine loader (`RelayerSDKLoader.ts`)

The browser `window` object is modelled by what the loader inspects:
whether the property `relayerSDK` exists on it (the `"relayerSDK" in
window` check of `load`), and whether `window.relayerSDK` is truthy (the
`!!w.relayerSDK` check of `isFhevmWindowType`; `w` itself is always
non-null here).  A present-but-falsy property models a malformed engine
object. -/

structure WindowModel where
  hasRelayerSDKProp : Bool
  relayerSDKTruthy : Bool
deriving DecidableEq

/-- The one fixed distribution endpoint. -/
def SDK_CDN_URL : String :=
  "https://cdn.zama.ai/relayer-sdk-js/0.2.0/relayer-sdk-js.umd.cjs"

/-- `isFhevmWindowType`: `!!w && !!w.relayerSDK`. -/
def isFhevmWindowType (w : WindowModel) : Bool :=
  w.hasRelayerSDKProp && w.relayerSDKTruthy

/-- Outcome of `RelayerSDKLoader.load`: the settled promise, the window
afterwards, and whether a script fetch was attempted. -/
structure LoadOutcome where
  result : Except String Unit
  window : WindowModel
  fetched : Bool

namespace RelayerSDKLoader

/-- `load()`: resolves immediately — without fetching and without any
shape check — whenever the property `relayerSDK` exists on `window`;
otherwise injects a script from `SDK_CDN_URL` (`fetchOk` is the
transport outcome), which on success installs the engine object and on
failure rejects with the load error naming the URL. -/
def load (w : WindowModel) (fetchOk : Bool) : LoadOutcome :=
  if w.hasRelayerSDKProp then
    { result := .ok (), window := w, fetched := false }
  else if fetchOk then
    { result := .ok (), window := { hasRelayerSDKProp := true, relayerSDKTruthy := true },
      fetched := true }
  else
    { result := .error ("Failed to load " ++ SDK_CDN_URL), window := w, fetched := true }

end RelayerSDKLoader

/-- Claim C3 counterexample: a window whose `relayerSDK` property exists
but is malformed (rejected by the well-formedness check
`isFhevmWindowType`) still makes `load` return successfully, without
fetching and without any `EngineShapeInvalid` failure — the claim's
"returns without fetching only when well-formed / fails with
EngineShapeInvalid when malformed" is false at this input. -/
theorem malformed_sdk_accepted_without_fetch :
    (RelayerSDKLoader.load { hasRelayerSDKProp := true, relayerSDKTruthy := false } true).result = .ok () ∧
    (RelayerSDKLoader.load { hasRelayerSDKProp := true, relayerSDKTruthy := false } true).fetched = false ∧
    isFhevmWindowType { hasRelayerSDKProp := true, relayerSDKTruthy := false } = false := by
  refine ⟨rfl, rfl, rfl⟩

/-- Claim C3 (amended): `load` returns without fetching whenever the
`relayerSDK` property exists on the process-wide namespace, regardless of
its shape (no shape validation is performed); when the property is
absent it fetches from the one fixed distribution endpoint, installing
the engine on success and failing with the load error naming the URL on
transport failure. -/
theorem load_skips_on_presence_only (w : WindowModel) (fOk : Bool) :
    ((RelayerSDKLoader.load w fOk).fetched = !w.hasRelayerSDKProp) ∧
    ((RelayerSDKLoader.load w fOk).result =
      if w.hasRelayerSDKProp || fOk then .ok ()
      else .error ("Failed to load " ++ SDK_CDN_URL)) ∧
    ((RelayerSDKLoader.load w fOk).window =
      if !w.hasRelayerSDKProp && fOk then { hasRelayerSDKProp := true, relayerSDKTruthy := true }
      else w) := by
  obtain ⟨hp, ht⟩ := w
  cases hp <;> cases ht <;> cases fOk <;> exact ⟨rfl, rfl, rfl⟩

/-! ### Network resolver (`resolve` in `fhevm.ts`)

`getChainId` reads the chain id from the transport; it enters the model
as the `chainId` argument.  A string transport contributes its URL as
`providerUrl`; an EIP-1193 transport contributes none. -/

/-- The merged mock-chain map `{ 31337: "http://localhost:8545",
...(mockChains ?? {}) }`: caller entries override the built-in default
entry for the conventional local-development chain id 31337. -/
def mergedLookup (mockChains : Option (List (Nat × String))) (chainId : Nat) : Option String :=
  match (mockChains.getD []).lookup chainId with
  | some url => some url
  | none => if chainId = 31337 then some "http://localhost:8545" else none

/-- Mirror of the `ResolveResult` union type. -/
structure ResolveResult where
  isMock : Bool
  chainId : Nat
  rpcUrl : Option String
deriving DecidableEq

/-- `resolve`: classifies the transport as emulated (`isMock = true`,
with an endpoint) exactly when the chain id has an entry in the merged
map, and as remote otherwise. -/
def resolve (chainId : Nat) (providerUrl : Option String)
    (mockChains : Option (List (Nat × String))) : ResolveResult :=
  match mergedLookup mockChains chainId with
  | some url => { isMock := true, chainId := chainId, rpcUrl := some (providerUrl.getD url) }
  | none => { isMock := false, chainId := chainId, rpcUrl := providerUrl }

/-- Claim C8 (confirmed): `resolve` merges the caller's override map with
the built-in default entry for chain id 31337 and returns an emulated
classification (carrying the chain id and an endpoint) exactly when the
queried chain id has an entry in the merged map, a remote classification
otherwise; in particular chain id 31337 is classified emulated even with
no override map supplied. -/
theorem resolve_classification (c : Nat) (u : Option String)
    (mc : Option (List (Nat × String))) :
    ((resolve c u mc).isMock = (mergedLookup mc c).isSome) ∧
    ((resolve c u mc).chainId = c) ∧
    ((resolve c u mc).isMock = true → ∃ url, (resolve c u mc).rpcUrl = some url) ∧
    ((resolve 31337 u none).isMock = true) := by
  refine ⟨?_, ?_, ?_, rfl⟩
  · simp only [resolve]
    cases mergedLookup mc c <;> rfl
  · simp only [resolve]
    cases mergedLookup mc c <;> rfl
  · intro hm
    simp only [resolve] at hm ⊢
    cases hmc : mergedLookup mc c with
    | none => simp [hmc] at hm
    | some url => exact ⟨u.getD url, by simp [hmc]⟩

theorem resolve_classification_witness :
    (resolve 31337 none none).isMock = true ∧
    ∃ url, (resolve 31337 none none).rpcUrl = some url :=
  have h : (resolve 31337 none none).isMock = true :=
    (resolve_classification 31337 none none).2.2.2
  ⟨h, (resolve_classification 31337 none none).2.2.1 h⟩

/-! ### Instance factory (`createFhevmInstance` in `fhevm.ts`)

The environment collects the outcomes of the suspension points: the
chain id read from the transport, the `web3_clientVersion` and
`fhevm_relayer_metadata` probe calls (each may throw), the mock-instance
construction, the CDN script fetch, `initSDK()` (which resolves a
boolean), `createInstance`, and the state of the caller's abort signal
(constant here: `useFhevm` never aborts it).  `relayerMetadata` is `.ok
true` when the metadata object carries all three required addresses. -/

structure FhevmEnv where
  chainId : Nat
  providerUrl : Option String
  mockChains : Option (List (Nat × String))
  clientVersion : Except String String
  relayerMetadata : Except String Bool
  mockCreate : Except String Nat
  loadOk : Bool
  initOk : Bool
  createResult : Except String Nat
  aborted : Bool

/-- `version.toLowerCase().includes("hardhat")`. -/
def isHardhatVersion (v : String) : Bool :=
  2 ≤ (v.toLower.splitOn "hardhat").length

/-- The mock branch of `createFhevmInstance`: `some r` when the branch
returns a mock instance, `none` when it falls through to the production
path (any probe failure, a non-Hardhat node, incomplete metadata, or a
mock-construction throw is caught and falls through). -/
def mockPath (env : FhevmEnv) : Option (Except String Nat) :=
  if (resolve env.chainId env.providerUrl env.mockChains).isMock then
    match env.clientVersion with
    | .error _ => none
    | .ok v =>
      if isHardhatVersion v then
        match env.relayerMetadata with
        | .error _ => none
        | .ok true =>
          match env.mockCreate with
          | .ok i => some (.ok i)
          | .error _ => none
        | .ok false => none
      else none
  else none

/-- Result of one `createFhevmInstance` run: the settled promise, the
window afterwards (the loaded engine persists process-wide), and how
many times the engine's one-time init entry point `initSDK()` was
invoked during this run. -/
structure ProcOutcome where
  result : Except String Nat
  window : WindowModel
  initCalls : Nat

/-- `createFhevmInstance`: try the mock branch; otherwise load the SDK if
`window` lacks it (checking `isFhevmWindowType`), then invoke
`initSDK()` — unconditionally, with no memoization — then
`createInstance`, checking the abort signal at each suspension
boundary. -/
def createFhevmInstance (env : FhevmEnv) (w : WindowModel) : ProcOutcome :=
  match mockPath env with
  | some r => { result := r, window := w, initCalls := 0 }
  | none =>
    let loadStep : Except String Unit × WindowModel :=
      if isFhevmWindowType w then (.ok (), w)
      else
        match (RelayerSDKLoader.load w env.loadOk).result with
        | .error e => (.error e, (RelayerSDKLoader.load w env.loadOk).window)
        | .ok _ =>
          if env.aborted then
            (.error "FHEVM operation was cancelled", (RelayerSDKLoader.load w env.loadOk).window)
          else (.ok (), (RelayerSDKLoader.load w env.loadOk).window)
    match loadStep.1 with
    | .error e => { result := .error e, window := loadStep.2, initCalls := 0 }
    | .ok _ =>
      if env.initOk = false then
        { result := .error "FHEVM SDK init failed", window := loadStep.2, initCalls := 1 }
      else if env.aborted then
        { result := .error "FHEVM operation was cancelled", window := loadStep.2, initCalls := 1 }
      else
        match env.createResult with
        | .error e => { result := .error e, window := loadStep.2, initCalls := 1 }
        | .ok i =>
          if env.aborted then
            { result := .error "FHEVM operation was cancelled", window := loadStep.2, initCalls := 1 }
          else { result := .ok i, window := loadStep.2, initCalls := 1 }

/-- A remote-chain environment (chain id 1, no mock map, probes fail
over to the production path) where load, init and create all succeed. -/
def envProd : FhevmEnv :=
  { chainId := 1, providerUrl := none, mockChains := none,
    clientVersion := .error "connection refused", relayerMetadata := .ok false,
    mockCreate := .error "unused", loadOk := true, initOk := true,
    createResult := .ok 3, aborted := false }

/-- Claim C4 counterexample: two successive successful activations on the
same process each invoke `initSDK()` once — the second activation does
not skip the re-invocation even though the first one succeeded and left
the engine installed in the window, so the init entry point is invoked
twice per process, not at most once. -/
theorem init_reinvoked_every_activation :
    (createFhevmInstance envProd { hasRelayerSDKProp := false, relayerSDKTruthy := false }).initCalls = 1 ∧
    (createFhevmInstance envProd { hasRelayerSDKProp := false, relayerSDKTruthy := false }).result = .ok 3 ∧
    (createFhevmInstance envProd
      (createFhevmInstance envProd { hasRelayerSDKProp := false, relayerSDKTruthy := false }).window).initCalls = 1 ∧
    (createFhevmInstance envProd
      (createFhevmInstance envProd { hasRelayerSDKProp := false, relayerSDKTruthy := false }).window).result = .ok 3 :=
  ⟨rfl, rfl, rfl, rfl⟩

/-- Claim C4 (amended): the engine's init entry point is invoked exactly
once per activation that reaches the production path — it is not
memoized across activations, so every later activation re-invokes it
even after a successful initialization. -/
theorem init_called_once_per_production_run (env : FhevmEnv) (w : WindowModel)
    (hmock : mockPath env = none) (hw : isFhevmWindowType w = true)
    (hab : env.aborted = false) (hinit : env.initOk = true) :
    (createFhevmInstance env w).initCalls = 1 := by
  cases hres : env.createResult with
  | ok i => simp [createFhevmInstance, hmock, hw, hab, hinit, hres]
  | error e => simp [createFhevmInstance, hmock, hw, hab, hinit, hres]

theorem init_called_once_per_production_run_witness :
    (createFhevmInstance envProd { hasRelayerSDKProp := true, relayerSDKTruthy := true }).initCalls = 1 :=
  init_called_once_per_production_run envProd
    { hasRelayerSDKProp := true, relayerSDKTruthy := true } rfl rfl rfl rfl

/-! ### Lifecycle controller (`useFhevm` in `fhevm.ts`)

The hook's observable state is the `instance` / `status` / `error`
React state plus the `initializingRef` guard flag (`initRunning` here).
`effectStart` is the synchronous prefix of the effect body: it returns
the updated state together with whether an activation run was actually
launched (`false` when the effect bails out because it is disabled, has
no provider, or a run is already in flight).  `settle` is the
continuation of `initAsync` applied to the outcome of
`createFhevmInstance`; the abort signal created inside the effect is
never aborted and no staleness check is made, so `settle` applies its
result unconditionally. -/

inductive FhevmGoState
  | idle
  | loading
  | ready
  | error
deriving DecidableEq

structure HookState where
  inst : Option Nat
  status : FhevmGoState
  err : Option String
  initRunning : Bool
deriving DecidableEq

/-- Hook state on mount. -/
def initialHook : HookState :=
  { inst := none, status := .idle, err := none, initRunning := false }

/-- Synchronous prefix of the `useEffect` body. -/
def effectStart (enabled providerPresent : Bool) (st : HookState) : HookState × Bool :=
  if !enabled || !providerPresent || st.initRunning then (st, false)
  else ({ st with initRunning := true, status := .loading, err := none }, true)

/-- Continuation of `initAsync` on the settled `createFhevmInstance`
promise: success stores the instance and Ready, failure stores the error
value and Error; `finally` clears the in-flight flag. -/
def settle (st : HookState) (res : Except String Nat) : HookState :=
  match res with
  | .ok i => { st with inst := some i, status := .ready, initRunning := false }
  | .error e => { st with err := some e, status := .error, initRunning := false }

/-- `refresh()`: back to Idle, clearing instance and error. -/
def refresh : HookState :=
  { inst := none, status := .idle, err := none, initRunning := false }

theorem effectStart_launched {enabled providerPresent : Bool} {st st1 : HookState}
    (h : effectStart enabled providerPresent st = (st1, true)) :
    st1 = { st with initRunning := true, status := .loading, err := none } := by
  simp only [effectStart] at h
  split at h
  · exact absurd (congrArg Prod.snd h) (by simp)
  · exact (congrArg Prod.fst h).symm

/-- Claim C1 counterexample: activation A launches (first `effectStart`);
while it is in flight the effect for the newly selected transport B runs
and is skipped (`launched = false` — B's activation never starts); when
A's result arrives, `settle` applies it, mutating the instance from
`none` to A's instance and the status to Ready.  So A's late result is
observed and B's outcome never is — the claimed last-caller-wins
discarding does not happen at this input. -/
theorem stale_result_observed :
    ((effectStart true true ((effectStart true true initialHook).1)).2 = false) ∧
    ((effectStart true true initialHook).1).inst = none ∧
    (settle (effectStart true true initialHook).1 (.ok 7)).inst = some 7 ∧
    (settle (effectStart true true initialHook).1 (.ok 7)).status = FhevmGoState.ready :=
  ⟨rfl, rfl, rfl, rfl⟩

/-- Claim C1 (amended): while an activation is in flight
(`initRunning = true`), any further effect run — in particular one for a
newly selected transport — is skipped without launching, and the
in-flight activation's result, when it arrives, is applied to the
controller state unconditionally (first-caller-wins while in flight;
late results are never discarded). -/
theorem inflight_activation_wins (enabled providerPresent : Bool) (st : HookState)
    (h : st.initRunning = true) (res : Except String Nat) :
    effectStart enabled providerPresent st = (st, false) ∧
    (∀ i, res = .ok i → (settle st res).inst = some i ∧ (settle st res).status = .ready) ∧
    (∀ e, res = .error e → (settle st res).err = some e ∧ (settle st res).status = .error) := by
  refine ⟨?_, ?_, ?_⟩
  · simp [effectStart, h]
  · intro i hi
    subst hi
    exact ⟨rfl, rfl⟩
  · intro e he
    subst he
    exact ⟨rfl, rfl⟩

theorem inflight_activation_wins_witness :
    ({ inst := none, status := FhevmGoState.loading, err := none, initRunning := true } : HookState).initRunning = true ∧
    effectStart true true { inst := none, status := FhevmGoState.loading, err := none, initRunning := true } =
      ({ inst := none, status := FhevmGoState.loading, err := none, initRunning := true }, false) ∧
    (settle { inst := none, status := FhevmGoState.loading, err := none, initRunning := true } (.ok 7)).inst = some 7 :=
  have h : ({ inst := none, status := FhevmGoState.loading, err := none, initRunning := true } : HookState).initRunning = true := rfl
  ⟨h, (inflight_activation_wins true true _ h (.ok 7)).1,
    ((inflight_activation_wins true true _ h (.ok 7)).2.1 7 rfl).1⟩

/-- Claim C2 (confirmed): every launched activation run — and no run is
ever explicitly cancelled, since the hook never aborts the signal it
creates — goes through Loading and settles in exactly one of Ready (with
the instance) or Error (with the failure stored as the current error
value, not thrown: `settle` is total), never remaining in Loading, and
clears the in-flight flag. -/
theorem activation_settles (enabled providerPresent : Bool) (st st1 : HookState)
    (res : Except String Nat)
    (h : effectStart enabled providerPresent st = (st1, true)) :
    st1.status = .loading ∧
    ((settle st1 res).status = .ready ∨ (settle st1 res).status = .error) ∧
    (settle st1 res).status ≠ .loading ∧
    (∀ i, res = .ok i → (settle st1 res).status = .ready ∧ (settle st1 res).inst = some i) ∧
    (∀ e, res = .error e → (settle st1 res).status = .error ∧ (settle st1 res).err = some e) ∧
    (settle st1 res).initRunning = false := by
  have hst1 := effectStart_launched h
  subst hst1
  refine ⟨rfl, ?_, ?_, ?_, ?_, ?_⟩
  · cases res with
    | ok i => exact Or.inl rfl
    | error e => exact Or.inr rfl
  · cases res with
    | ok i => simp [settle]
    | error e => simp [settle]
  · intro i hi
    subst hi
    exact ⟨rfl, rfl⟩
  · intro e he
    subst he
    exact ⟨rfl, rfl⟩
  · cases res with
    | ok i => rfl
    | error e => rfl

theorem activation_settles_witness :
    effectStart true true initialHook =
      ({ initialHook with initRunning := true, status := FhevmGoState.loading, err := none }, true) ∧
    (settle { initialHook with initRunning := true, status := FhevmGoState.loading, err := none } (.ok 2)).status = FhevmGoState.ready ∧
    (settle { initialHook with initRunning := true, status := FhevmGoState.loading, err := none } (.ok 2)).inst = some 2 := by
  have h : effectStart true true initialHook =
      ({ initialHook with initRunning := true, status := FhevmGoState.loading, err := none }, true) := rfl
  obtain ⟨-, -, -, h4, -, -⟩ := activation_settles true true initialHook _ (.ok 2) h
  obtain ⟨ha, hb⟩ := h4 2 rfl
  exact ⟨h, ha, hb⟩

/-! ### Decryption grant (`FhevmDecryptionSignature.ts`)

Time enters as the current clock in milliseconds (`Date.now()`), and
division by 1000 is exact rational division as in the source; the
structured `eip712` payload is opaque and omitted.  `signResult` is the
outcome of the signer round trip: `none` models a rejection/throw of
`getAddress`/`signTypedData` (the source catch returns `null`). -/

structure FhevmDecryptionSignature where
  publicKey : String
  privateKey : String
  signature : String
  startTimestamp : Nat
  durationDays : Nat
  userAddress : String
  contractAddresses : List String

/-- `isValid()`: `Date.now() / 1000 < startTimestamp + durationDays * 24 * 60 * 60`. -/
def FhevmDecryptionSignature.isValid (s : FhevmDecryptionSignature) (nowMs : Nat) : Bool :=
  decide ((nowMs : ℚ) / 1000 < (s.startTimestamp : ℚ) + (s.durationDays : ℚ) * 24 * 60 * 60)

/-- `FhevmDecryptionSignature.new`: issuance is
`Math.floor(Date.now() / 1000)`, the validity window is the fixed
365-day policy; a signer failure yields `null`. -/
def FhevmDecryptionSignature.new (nowMs : Nat) (publicKey privateKey userAddress : String)
    (contractAddresses : List String) (signResult : Option String) :
    Option FhevmDecryptionSignature :=
  match signResult with
  | none => none
  | some sig =>
    some { publicKey := publicKey, privateKey := privateKey, signature := sig,
           startTimestamp := nowMs / 1000, durationDays := 365,
           userAddress := userAddress, contractAddresses := contractAddresses }

/-- Claim C7 (confirmed): a grant is valid iff the current time is
strictly before issuance plus its validity window; a grant minted by
`new` (fixed 365-day window) is valid immediately at its creation time
and invalid at any clock at or past issuance + 365 days. -/
theorem decryptionSignature_window (nowMs : Nat) (pk sk ua sg : String) (cs : List String)
    (s : FhevmDecryptionSignature)
    (hnew : FhevmDecryptionSignature.new nowMs pk sk ua cs (some sg) = some s) :
    (∀ n : Nat, s.isValid n = true ↔
      (n : ℚ) / 1000 < (s.startTimestamp : ℚ) + (s.durationDays : ℚ) * 24 * 60 * 60) ∧
    s.isValid nowMs = true ∧
    (∀ n2 : Nat, (s.startTimestamp : ℚ) + 365 * 86400 ≤ (n2 : ℚ) / 1000 →
      s.isValid n2 = false) := by
  have hs : s = { publicKey := pk, privateKey := sk, signature := sg,
                  startTimestamp := nowMs / 1000, durationDays := 365,
                  userAddress := ua, contractAddresses := cs } := by
    simp only [FhevmDecryptionSignature.new] at hnew
    injection hnew with hnew
    exact hnew.symm
  subst hs
  refine ⟨fun n => ?_, ?_, fun n2 hn2 => ?_⟩
  · simp [FhevmDecryptionSignature.isValid]
  · simp only [FhevmDecryptionSignature.isValid, decide_eq_true_eq]
    have hdm := Nat.div_add_mod nowMs 1000
    have hml : nowMs % 1000 < 1000 := Nat.mod_lt _ (by norm_num)
    rw [div_lt_iff₀ (by norm_num : (0:ℚ) < 1000)]
    have h3 : ((1000 * (nowMs / 1000) + nowMs % 1000 : ℕ) : ℚ) = (nowMs : ℚ) := by
      exact_mod_cast congrArg (fun k : ℕ => (k : ℚ)) hdm
    have h4 : ((nowMs % 1000 : ℕ) : ℚ) < 1000 := by exact_mod_cast hml
    push_cast at h3 ⊢
    nlinarith [h3, h4]
  · simp only [FhevmDecryptionSignature.isValid, decide_eq_false_iff_not, not_lt]
    have : ((365 : ℕ) : ℚ) * 24 * 60 * 60 = 365 * 86400 := by norm_num
    push_cast at hn2 ⊢
    linarith [hn2]

/-- The concrete grant minted at clock 0 in the witness below. -/
def sigDemo : FhevmDecryptionSignature :=
  { publicKey := "pk", privateKey := "sk", signature := "sig",
    startTimestamp := 0, durationDays := 365,
    userAddress := "ua", contractAddresses := [] }

theorem decryptionSignature_window_witness :
    FhevmDecryptionSignature.new 0 "pk" "sk" "ua" [] (some "sig") = some sigDemo ∧
    sigDemo.isValid 0 = true ∧
    sigDemo.isValid 31536000000 = false := by
  have hnew : FhevmDecryptionSignature.new 0 "pk" "sk" "ua" [] (some "sig") = some sigDemo := rfl
  obtain ⟨-, h2, h3⟩ := decryptionSignature_window 0 "pk" "sk" "ua" "sig" [] sigDemo hnew
  refine ⟨hnew, h2, h3 31536000000 ?_⟩
  norm_num [sigDemo]

end Frontend
